import Mathlib

/-!
Shallow embedding of the virtual-scroller engine from `src/VirtualScroller.ts`.

The engine state (the component fields `items`, `hasMore`, `minHeight`,
`itemsMetadata`, `attachedRange`, `isScrolling`, plus the scroll container
readings `scrollTop` and `offsetHeight`) is modelled as an explicit record;
payloads are modelled as natural numbers, DOM layout heights as natural
numbers (layout heights are never negative), and the rendered item nodes that
`updateMetadata` queries are passed in as an explicit list of their measured
heights.  Range indices stay integers, exactly as in the source, because the
clamping in `fill` can produce values outside `[0, items.length - 1]`.
-/

namespace VirtualScroller

/-- Per-item metadata record (`interface ScrollerItemMeta`): position `index`,
measured `height` in layout units (`0` means unmeasured), and the payload
reference `data` (payloads are modelled as `Nat`). -/
structure ScrollerItemMeta where
  index : Nat
  height : Nat
  data : Nat
  deriving DecidableEq, Repr

/-- Attached window bounds (`interface ScrollerRange`).  The source field
`end` is a Lean keyword, so it is named `endIdx` here. -/
structure ScrollerRange where
  start : Int
  endIdx : Int
  deriving DecidableEq, Repr

/-- Result of `getVisibleItems` (`interface ScrollerVisibleItems`). -/
structure ScrollerVisibleItems where
  first : Int
  last : Int
  deriving DecidableEq, Repr

/-- A dispatched DOM `CustomEvent`: its event `type` string and its `detail`
payload (`none` models `undefined`). -/
structure DomEvent where
  type : String
  detail : Option Nat
  deriving DecidableEq, Repr

/-- The engine state: the reactive component fields together with the scroll
container readings consumed by `getVisibleItems`. -/
structure ScrollerState where
  items : List Nat
  hasMore : Bool
  minHeight : Nat
  itemsMetadata : List ScrollerItemMeta
  attachedRange : ScrollerRange
  isScrolling : Bool
  scrollTop : Int
  offsetHeight : Int
  deriving DecidableEq, Repr

/-- The height estimate used in offset math: `currentValue.height || this.minHeight`
(a height of `0` means unmeasured and falls back to the default estimate). -/
def heightOrMin (m : ScrollerItemMeta) (minHeight : Nat) : Nat :=
  if m.height = 0 then minHeight else m.height

/-- One step of the `accumulativeHeight` reducer: read the last entry of the
accumulator (it is never missing, since the accumulator starts as `[0]`) and
push it plus the effective height of the current record. -/
def accStep (minHeight : Nat) (acumulador : List Nat) (currentValue : ScrollerItemMeta) : List Nat :=
  match acumulador.getLast? with
  | some lastHeight => acumulador ++ [lastHeight + heightOrMin currentValue minHeight]
  | none => acumulador

/-- The `accumulativeHeight` getter: a left fold of `accStep` over the
metadata records, starting from `[0]`. -/
def accumulativeHeight (itemsMetadata : List ScrollerItemMeta) (minHeight : Nat) : List Nat :=
  itemsMetadata.foldl (accStep minHeight) [0]

/-- Index of the last element satisfying `p`, as an `Option Nat`
(helper for the lodash `findLastIndex`). -/
def findLastIdxNat (p : Nat → Bool) : List Nat → Option Nat
  | [] => none
  | a :: l =>
    match findLastIdxNat p l with
    | some j => some (j + 1)
    | none => if p a then some 0 else none

/-- The lodash `findLastIndex`: greatest index whose element satisfies `p`,
or `-1` when no element does. -/
def findLastIndex (l : List Nat) (p : Nat → Bool) : Int :=
  match findLastIdxNat p l with
  | some j => (j : Int)
  | none => -1

/-- The `getVisibleItems` method, parameterised by the accumulative offsets
and the container readings `scrollTop` and `offsetHeight` that the source
reads from `this.element`. -/
def getVisibleItems (accumulative : List Nat) (scrollTop offsetHeight : Int) : ScrollerVisibleItems :=
  { first := findLastIndex accumulative (fun item => decide ((item : Int) ≤ scrollTop)),
    last := findLastIndex accumulative (fun item => decide ((item : Int) ≤ scrollTop + offsetHeight)) }

/-- The `loading` getter: `this.hasMore && end >= this.items.length - 1`. -/
def loading (s : ScrollerState) : Bool :=
  s.hasMore && decide (s.attachedRange.endIdx ≥ (s.items.length : Int) - 1)

/-- The growth phase of `updateMetadata`: when the collection is longer than
the metadata list, append fresh unmeasured records for the new tail. -/
def growMetadata (items : List Nat) (itemsMetadata : List ScrollerItemMeta) : List ScrollerItemMeta :=
  let diff : Int := (items.length : Int) - (itemsMetadata.length : Int)
  if 0 < diff then
    itemsMetadata ++ (List.range diff.toNat).map (fun i =>
      { index := itemsMetadata.length + i, height := 0,
        data := items.getD (itemsMetadata.length + i) 0 })
  else itemsMetadata

/-- The measurement loop of `updateMetadata`
(`for (let i = start; i <= end; i++)`), processing `count` indices starting at
`i`.  A missing node (`if (!node) return`) aborts the remaining iterations; a
missing metadata record would fault in the source, but through `fill` the
clamped range always lies inside the grown store (the faulting dereference of
an absent record is modelled separately by `nodeResizeCallback`), so that
case also returns the list unchanged here. -/
def refreshLoop (items nodes : List Nat) (rangeStart : Nat) :
    List ScrollerItemMeta → Nat → Nat → List ScrollerItemMeta
  | meta, _, 0 => meta
  | meta, i, count + 1 =>
    match nodes.get? (i - rangeStart) with
    | none => meta
    | some nodeHeight =>
      match meta.get? i with
      | none => meta
      | some m =>
        refreshLoop items nodes rangeStart
          (meta.set i { m with height := nodeHeight, data := items.getD i 0 }) (i + 1) count

/-- The `updateMetadata` method: grow the store to the collection length,
return early when `start === end`, otherwise re-read the rendered height and
the payload for every index of the attached range.  `nodes` are the measured
heights of the rendered `.virtual-scroller__item` nodes, positionally indexed
by `i - start`. -/
def updateMetadata (nodes items : List Nat) (itemsMetadata : List ScrollerItemMeta)
    (range : ScrollerRange) : List ScrollerItemMeta :=
  let meta1 := growMetadata items itemsMetadata
  if range.start = range.endIdx then meta1
  else refreshLoop items nodes range.start.toNat meta1 range.start.toNat
    ((range.endIdx - range.start + 1).toNat)

/-- The `dispatch` helper.  Faithful to the source: the event type of the
`CustomEvent` is the literal string `"event"` (the `event` name parameter is
unused), and the detail is `data ?? undefined`. -/
def dispatch (_event : String) (data : Option Nat) : DomEvent :=
  { type := "event", detail := data }

/-- The `fill` method: clamp the requested range, store it as the attached
range, refresh metadata when the collection is non-empty, and dispatch the
load-more notification when the requested `end` runs off the known collection
while `hasMore` is set.  Returns the new state together with the dispatched
events. -/
def fill (nodes : List Nat) (s : ScrollerState) (start endArg : Int) :
    ScrollerState × List DomEvent :=
  let starRange := max 0 start
  let endRange := min endArg (max 0 ((s.items.length : Int) - 1))
  let attachedRange : ScrollerRange := { start := starRange, endIdx := endRange }
  let itemsMetadata :=
    if s.items.length ≠ 0 then updateMetadata nodes s.items s.itemsMetadata attachedRange
    else s.itemsMetadata
  let events :=
    if endArg ≥ (s.items.length : Int) ∧ s.hasMore = true then
      [dispatch "load-more" (some s.items.length)]
    else []
  ({ s with attachedRange := attachedRange, itemsMetadata := itemsMetadata }, events)

/-- The `resetMetadata` method: reset the attached range to `{0,0}` and
rebuild the store from the collection, every record unmeasured with `index`
equal to its position. -/
def resetMetadata (s : ScrollerState) : ScrollerState :=
  { s with
    attachedRange := { start := 0, endIdx := 0 },
    itemsMetadata := s.items.enum.map (fun p =>
      { index := p.1, height := 0, data := p.2 }) }

/-- The `items` branch of the `updated` lifecycle hook: when the `items`
property changed, `hasMore` is false and the collection length differs from
the metadata length, rebuild the store via `resetMetadata` and scroll to the
top (`scrollTo(0, 0)`).  The subsequent `fillInitial` regrow is modelled
separately by `fillInitialFuel`. -/
def updated (itemsChanged : Bool) (s : ScrollerState) : ScrollerState :=
  if itemsChanged && !s.hasMore && (s.items.length != s.itemsMetadata.length) then
    let s1 := resetMetadata s
    { s1 with scrollTop := 0 }
  else s

/-- The per-node `ResizeObserver` callback installed by `initObservers`: a
zero height returns silently; otherwise the record at `index` is fetched and
its `height` field is overwritten in place, and the record is stored back at
slot `metadata.index`.  When `index` is out of bounds the source dereferences
`undefined` (`metadata.height = height` on a missing record) and throws a
`TypeError`, modelled as `Except.error`. -/
def nodeResizeCallback (itemsMetadata : List ScrollerItemMeta) (index : Nat) (height : Nat) :
    Except String (List ScrollerItemMeta) :=
  if height = 0 then Except.ok itemsMetadata
  else
    match itemsMetadata.get? index with
    | none => Except.error "TypeError: cannot set height of undefined"
    | some metadata =>
      let metadata1 := { metadata with height := height }
      Except.ok ((itemsMetadata.set index metadata1).set metadata1.index metadata1)

/-- The `fillInitial` growth loop, with explicit fuel bounding the number of
calls (`none` means the fuel ran out before the loop stopped).  Each call
performs `fill(start, end + 1)` (whose clamp gives the new end
`min (end + 1) (len - 1)`), waits a paint tick during which the newly
attached items get their real measured heights (`heights i` is the measured
height of item `i`), and recurses while the attached slice neither covers the
collection nor sums to at least the container client height `H`. -/
def fillInitialFuel (heights : Nat → Nat) (len H rangeStart : Nat) : Nat → Nat → Option Nat
  | 0, _ => none
  | fuel + 1, e =>
    let eNew := min (e + 1) (len - 1)
    let attachedLen := min (eNew + 1) len - rangeStart
    let measured := ((List.range attachedLen).map (fun k => heights (rangeStart + k))).sum
    if attachedLen < len ∧ measured < H then
      fillInitialFuel heights len H rangeStart fuel eNew
    else some eNew

/-- The `handleScroll` method: a no-op while `isScrolling` is set; otherwise
set the guard, dispatch the scrolled notification, clear the guard after the
paint tick, and fill with the visible range computed from the live scroll
readings. -/
def handleScroll (nodes : List Nat) (s : ScrollerState) : ScrollerState × List DomEvent :=
  if s.isScrolling = false then
    let scrolledEvent := dispatch "scrolled" none
    let s1 : ScrollerState := { s with isScrolling := false }
    let visible := getVisibleItems (accumulativeHeight s1.itemsMetadata s1.minHeight)
      s1.scrollTop s1.offsetHeight
    let filled := fill nodes s1 visible.first visible.last
    (filled.1, scrolledEvent :: filled.2)
  else (s, [])

/-- Convenience constructor for engine states used in concrete instances. -/
def mkState (items : List Nat) (hasMore : Bool) (itemsMetadata : List ScrollerItemMeta)
    (attachedRange : ScrollerRange) : ScrollerState :=
  { items := items, hasMore := hasMore, minHeight := 50, itemsMetadata := itemsMetadata,
    attachedRange := attachedRange, isScrolling := false, scrollTop := 0, offsetHeight := 0 }

/-! ### Concrete states used by counterexamples and witnesses -/

/-- A one-item collection with an empty metadata store. -/
def stateOne : ScrollerState := mkState [7] false [] { start := 0, endIdx := 0 }

/-- A ten-item collection with `hasMore` set, as in the load-more scenario. -/
def stateTen : ScrollerState := mkState (List.range 10) true [] { start := 0, endIdx := 0 }

/-- An empty collection with `hasMore` set and the initial attached range. -/
def stateEmptyMore : ScrollerState := mkState [] true [] { start := 0, endIdx := 0 }

/-- A three-item collection whose first record is already measured at height 7,
with the full range attached. -/
def stateRefresh : ScrollerState :=
  mkState [1, 2, 3] false
    [{ index := 0, height := 7, data := 1 }, { index := 1, height := 0, data := 2 },
     { index := 2, height := 0, data := 3 }]
    { start := 0, endIdx := 2 }

/-- A state in the middle of a same-length collection swap: `items` already
holds the new payloads `[2, 3]` while the metadata records still point at the
old payloads `[0, 1]`, with a non-zero scroll position. -/
def stateSwap : ScrollerState :=
  { mkState [2, 3] false
      [{ index := 0, height := 5, data := 0 }, { index := 1, height := 0, data := 1 }]
      { start := 0, endIdx := 1 } with
    scrollTop := 57 }

/-- A state whose collection grew from empty to three items (metadata not yet
rebuilt), with a non-zero scroll position. -/
def stateGrow : ScrollerState :=
  { mkState [4, 5, 6] false [] { start := 2, endIdx := 2 } with scrollTop := 9 }

/-- A metadata store of three records, the first one measured. -/
def metaThree : List ScrollerItemMeta :=
  [{ index := 0, height := 10, data := 0 }, { index := 1, height := 0, data := 1 },
   { index := 2, height := 0, data := 2 }]

/-- An unmeasured three-record store synchronized with `[1, 2, 3]`. -/
def metaSync : List ScrollerItemMeta :=
  [{ index := 0, height := 0, data := 1 }, { index := 1, height := 0, data := 2 },
   { index := 2, height := 0, data := 3 }]

/-- A scrolling state (settle sequence in flight). -/
def stateScrolling : ScrollerState :=
  { mkState [1, 2] true metaThree { start := 0, endIdx := 1 } with isScrolling := true }

/-! ### C1: the range invariant of `fill` -/

/-- C1 counterexample: the claim asserts the stored attached range satisfies
`0 <= start <= end` for every pair of integers passed to `fill`, but
`fill(1, 1)` on a one-item collection stores the range `{1, 0}`, whose end is
strictly below its start: `max(0, 1) = 1` while `min(1, max(0, 0)) = 0`. -/
theorem fill_clamp_order_violation :
    (fill [] stateOne 1 1).1.attachedRange.endIdx <
      (fill [] stateOne 1 1).1.attachedRange.start := by decide

/-- C1 amended: for every state and every pair of integers `(start, end)` with
`start ≤ end`, `0 ≤ end` and `start ≤ max 0 (items.length - 1)`, the attached
range stored by `fill` satisfies `0 ≤ start' ≤ end' ≤ max 0 (items.length - 1)`,
and both bounds are `0` when the collection is empty. -/
theorem fill_clamp_range_invariant (nodes : List Nat) (s : ScrollerState) (start endArg : Int)
    (h1 : start ≤ endArg) (h2 : 0 ≤ endArg)
    (h3 : start ≤ max 0 ((s.items.length : Int) - 1)) :
    0 ≤ (fill nodes s start endArg).1.attachedRange.start ∧
    (fill nodes s start endArg).1.attachedRange.start ≤
      (fill nodes s start endArg).1.attachedRange.endIdx ∧
    (fill nodes s start endArg).1.attachedRange.endIdx ≤ max 0 ((s.items.length : Int) - 1) ∧
    (s.items = [] →
      (fill nodes s start endArg).1.attachedRange.start = 0 ∧
      (fill nodes s start endArg).1.attachedRange.endIdx = 0) := by
  have hs : (fill nodes s start endArg).1.attachedRange.start = max 0 start := rfl
  have he : (fill nodes s start endArg).1.attachedRange.endIdx =
      min endArg (max 0 ((s.items.length : Int) - 1)) := rfl
  refine ⟨?_, ?_, ?_, ?_⟩
  · rw [hs]; exact le_max_left 0 start
  · rw [hs, he]; exact le_min (max_le h2 h1) (max_le (le_max_left 0 _) h3)
  · rw [he]; exact min_le_right _ _
  · intro hempty
    have hmax : max 0 ((s.items.length : Int) - 1) = 0 := by rw [hempty]; decide
    refine ⟨?_, ?_⟩
    · rw [hs]; rw [hmax] at h3; exact max_eq_left h3
    · rw [he, hmax]; exact min_eq_right h2

/-- C1 witness: the amended invariant instantiated at `fill(0, 0)` on a
one-item collection. -/
theorem fill_clamp_range_invariant_witness :
    0 ≤ (fill [] stateOne 0 0).1.attachedRange.start ∧
    (fill [] stateOne 0 0).1.attachedRange.start ≤
      (fill [] stateOne 0 0).1.attachedRange.endIdx ∧
    (fill [] stateOne 0 0).1.attachedRange.endIdx ≤
      max 0 ((stateOne.items.length : Int) - 1) ∧
    (stateOne.items = [] →
      (fill [] stateOne 0 0).1.attachedRange.start = 0 ∧
      (fill [] stateOne 0 0).1.attachedRange.endIdx = 0) :=
  fill_clamp_range_invariant [] stateOne 0 0 (by decide) (by decide) (by decide)

/-! ### C4: the load-more signal -/

/-- C4 counterexample: with `hasMore` set and a collection of length 10,
`fill(4, 9)` makes the attached window reach the known end `{4, 9}`, yet no
signal at all is dispatched, because the dispatch condition compares the
requested `end` (here 9) against `items.length` (10), not the clamped window
against the last known index. -/
theorem fill_at_end_no_signal :
    (fill [] stateTen 4 9).1.attachedRange = { start := 4, endIdx := 9 } ∧
    (fill [] stateTen 4 9).2 = [] := by decide

/-- C4 amended: `fill` invokes the dispatch helper with the name `load-more`
and payload `items.length` exactly when `hasMore` is true and the requested
(pre-clamp) `end` is at least `items.length`; the helper dispatches a
`CustomEvent` whose DOM type is the literal string `"event"` (its name
argument is unused) carrying that payload.  In particular `fill(4, 10)` on a
length-10 collection with `hasMore` attaches `{4, 9}` and dispatches the
payload 10. -/
theorem fill_load_more_characterization :
    (∀ (nodes : List Nat) (s : ScrollerState) (start endArg : Int),
      (fill nodes s start endArg).2 =
        if endArg ≥ (s.items.length : Int) ∧ s.hasMore = true then
          [dispatch "load-more" (some s.items.length)]
        else []) ∧
    (∀ (event : String) (data : Option Nat),
      dispatch event data = { type := "event", detail := data }) ∧
    (fill [] stateTen 4 10).1.attachedRange = { start := 4, endIdx := 9 } ∧
    (fill [] stateTen 4 10).2 = [{ type := "event", detail := some 10 }] :=
  ⟨fun _ _ _ _ => rfl, fun _ _ => rfl, by decide, by decide⟩

/-! ### C5: loading placeholder visibility -/

/-- C5 counterexample: on the empty collection with `hasMore` set and the
initial attached range `{0, 0}`, the placeholder is visible although
`attachedRange.end` (0) differs from `items.length - 1` (-1): the source
compares with `>=`, not equality. -/
theorem loading_empty_collection :
    loading stateEmptyMore = true ∧
    stateEmptyMore.attachedRange.endIdx ≠ (stateEmptyMore.items.length : Int) - 1 := by decide

/-- C5 amended: the placeholder is visible iff `hasMore` is true and
`attachedRange.end >= items.length - 1`; when the collection is non-empty and
the range respects the clamp bound `end <= items.length - 1`, this is
equivalent to the claimed equality `end = items.length - 1`, but on the empty
collection the placeholder is visible whenever `hasMore` is set. -/
theorem loading_characterization (s : ScrollerState) :
    (loading s = true ↔
      s.hasMore = true ∧ (s.items.length : Int) - 1 ≤ s.attachedRange.endIdx) ∧
    (s.items ≠ [] → s.attachedRange.endIdx ≤ (s.items.length : Int) - 1 →
      (loading s = true ↔
        s.hasMore = true ∧ s.attachedRange.endIdx = (s.items.length : Int) - 1)) := by
  constructor
  · simp [loading, ge_iff_le]
  · intro _ hle
    simp only [loading, Bool.and_eq_true, decide_eq_true_eq, ge_iff_le]
    constructor
    · rintro ⟨hm, hge⟩; exact ⟨hm, le_antisymm hle hge⟩
    · rintro ⟨hm, heq⟩; exact ⟨hm, heq.ge⟩

/-- C5 witness: the amended characterization instantiated at a two-item
collection with `hasMore` set and the attached range `{0, 1}`. -/
theorem loading_characterization_witness :
    loading (mkState [5, 6] true [] { start := 0, endIdx := 1 }) = true :=
  ((loading_characterization (mkState [5, 6] true [] { start := 0, endIdx := 1 })).2
    (by decide) (by decide)).mpr ⟨rfl, by decide⟩

/-! ### C6: out-of-bounds measurement signal -/

/-- C6: the claim (and the spec) say an out-of-bounds measurement signal is a
silent no-op, but the source fetches `itemsMetadata[index]` (which is
`undefined` out of bounds) and immediately writes `metadata.height = height`,
which throws a `TypeError`: the measurement signal `(5, 80)` against a
three-record store faults instead of being ignored. -/
theorem nodeResize_out_of_bounds_faults :
    nodeResizeCallback metaThree 5 80 =
      Except.error "TypeError: cannot set height of undefined" := by rfl

/-! ### C2: the accumulative offset sequence -/

/-- The offsets produced after an accumulator ending in `h`: closed form of
the tail the `accumulativeHeight` reducer appends. -/
def tailOffsets (minHeight h : Nat) : List ScrollerItemMeta → List Nat
  | [] => []
  | m :: l =>
    (h + heightOrMin m minHeight) :: tailOffsets minHeight (h + heightOrMin m minHeight) l

theorem foldl_accStep (minHeight : Nat) :
    ∀ (l : List ScrollerItemMeta) (acc : List Nat) (h : Nat), acc.getLast? = some h →
      List.foldl (accStep minHeight) acc l = acc ++ tailOffsets minHeight h l := by
  intro l
  induction l with
  | nil => intro acc h _; simp [tailOffsets]
  | cons m l ih =>
    intro acc h hl
    rw [List.foldl_cons]
    have hstep : accStep minHeight acc m = acc ++ [h + heightOrMin m minHeight] := by
      unfold accStep; rw [hl]
    rw [hstep, ih _ _ (List.getLast?_concat _)]
    simp [tailOffsets]

theorem accumulativeHeight_eq (itemsMetadata : List ScrollerItemMeta) (minHeight : Nat) :
    accumulativeHeight itemsMetadata minHeight = 0 :: tailOffsets minHeight 0 itemsMetadata := by
  unfold accumulativeHeight
  rw [foldl_accStep minHeight itemsMetadata [0] 0 rfl]
  rfl

theorem length_tailOffsets (minHeight : Nat) :
    ∀ (l : List ScrollerItemMeta) (h : Nat), (tailOffsets minHeight h l).length = l.length := by
  intro l
  induction l with
  | nil => intro h; rfl
  | cons m l ih => intro h; simp [tailOffsets, ih]

theorem chain'_tailOffsets (minHeight : Nat) :
    ∀ (l : List ScrollerItemMeta) (h : Nat),
      List.Chain' (fun a b => a ≤ b) (h :: tailOffsets minHeight h l) := by
  intro l
  induction l with
  | nil => intro h; simp [tailOffsets]
  | cons m l ih =>
    intro h
    simp only [tailOffsets, List.chain'_cons]
    exact ⟨Nat.le_add_right h _, ih _⟩

theorem tailOffsets_step (minHeight : Nat) :
    ∀ (l : List ScrollerItemMeta) (h i : Nat) (m : ScrollerItemMeta), l.get? i = some m →
      (h :: tailOffsets minHeight h l).get? (i + 1) =
        some (((h :: tailOffsets minHeight h l).get? i).getD 0 + heightOrMin m minHeight) := by
  intro l
  induction l with
  | nil => intro h i m hm; simp at hm
  | cons m0 l ih =>
    intro h i m hm
    cases i with
    | zero =>
      simp only [List.get?_cons_zero, Option.some.injEq] at hm
      subst hm
      simp [tailOffsets]
    | succ i =>
      simp only [List.get?_cons_succ] at hm
      simp only [tailOffsets, List.get?_cons_succ]
      simpa using ih (h + heightOrMin m0 minHeight) i m hm

/-- C2: for a metadata store synchronized with a non-empty collection, the
accumulative offsets have length `items.length + 1`, start at `0`, step by the
measured height (or the `minHeight` estimate when unmeasured), and are
non-decreasing. -/
theorem accumulativeHeight_spec (items : List Nat) (itemsMetadata : List ScrollerItemMeta)
    (minHeight : Nat) (hsync : itemsMetadata.length = items.length) (_hne : items ≠ []) :
    (accumulativeHeight itemsMetadata minHeight).length = items.length + 1 ∧
    (accumulativeHeight itemsMetadata minHeight).get? 0 = some 0 ∧
    (∀ (i : Nat) (m : ScrollerItemMeta), itemsMetadata.get? i = some m →
      (accumulativeHeight itemsMetadata minHeight).get? (i + 1) =
        some (((accumulativeHeight itemsMetadata minHeight).get? i).getD 0 +
          heightOrMin m minHeight)) ∧
    List.Chain' (fun a b => a ≤ b) (accumulativeHeight itemsMetadata minHeight) := by
  rw [accumulativeHeight_eq]
  refine ⟨?_, rfl, ?_, chain'_tailOffsets minHeight itemsMetadata 0⟩
  · simp [length_tailOffsets, hsync]
  · intro i m hm
    exact tailOffsets_step minHeight itemsMetadata 0 i m hm

/-- The metadata store of the spec scenario: item 0 measured at height 80,
items 1 and 2 still unmeasured, payloads `[10, 20, 30]`. -/
def metaScenario : List ScrollerItemMeta :=
  [{ index := 0, height := 80, data := 10 }, { index := 1, height := 0, data := 20 },
   { index := 2, height := 0, data := 30 }]

/-- C2 witness: with item 0 measured at 80, the others defaulting to 50, the
offsets are `[0, 80, 130, 180]`, of length `items.length + 1`. -/
theorem accumulativeHeight_spec_witness :
    (accumulativeHeight metaScenario 50).get? 1 = some 80 ∧
    (accumulativeHeight metaScenario 50).get? 2 = some 130 ∧
    (accumulativeHeight metaScenario 50).length = [10, 20, 30].length + 1 :=
  ⟨by decide, by decide,
    (accumulativeHeight_spec [10, 20, 30] metaScenario 50 rfl (by decide)).1⟩

/-! ### C3: collection replacement handling in `updated` -/

/-- C3 counterexample: a wholesale same-length replacement with
`hasMore = false` does not rebuild anything: the `updated` hook only reacts
when the collection length differs from the metadata length, so the state is
returned unchanged even though the metadata records still point at the old
payloads and the scroll position is non-zero. -/
theorem updated_same_length_no_reset :
    updated true stateSwap = stateSwap ∧
    stateSwap.itemsMetadata.map (fun m => m.data) ≠ stateSwap.items ∧
    stateSwap.scrollTop ≠ 0 := by decide

/-- C3 amended: the full rebuild happens only when the new collection length
differs from the metadata length (with `hasMore` false): then the store is
rebuilt with every height 0, index equal to position and data re-pointed, the
attached range is reset to `{0, 0}` and the scroll position to 0 (before the
subsequent `fillInitial` regrows the window); a same-length replacement
changes nothing. -/
theorem updated_length_mismatch_resets (s : ScrollerState)
    (h1 : s.hasMore = false) (h2 : s.items.length ≠ s.itemsMetadata.length) :
    (updated true s).attachedRange = { start := 0, endIdx := 0 } ∧
    (updated true s).scrollTop = 0 ∧
    (updated true s).itemsMetadata.length = s.items.length ∧
    ∀ (i item : Nat), s.items.get? i = some item →
      (updated true s).itemsMetadata.get? i =
        some { index := i, height := 0, data := item } := by
  have hcond : (true && !s.hasMore && (s.items.length != s.itemsMetadata.length)) = true := by
    rw [h1]
    simpa [bne_iff_ne] using h2
  unfold updated
  rw [hcond, if_pos rfl]
  refine ⟨rfl, rfl, ?_, ?_⟩
  · simp [resetMetadata, List.enum_length]
  · intro i item hi
    rw [List.get?_eq_getElem?] at hi
    simp [resetMetadata, List.getElem?_map, List.getElem?_enum, hi]

/-- C3 witness: the amended reset instantiated at a state whose collection
grew from zero to three items. -/
theorem updated_length_mismatch_resets_witness :
    (updated true stateGrow).scrollTop = 0 ∧
    (updated true stateGrow).itemsMetadata.get? 0 =
      some { index := 0, height := 0, data := 4 } := by
  have h := updated_length_mismatch_resets stateGrow rfl (by decide)
  exact ⟨h.2.1, h.2.2.2 0 4 rfl⟩

/-! ### C7: the visible-range computation -/

/-- The defining property of the lodash `findLastIndex` result `r`: either no
element satisfies `p` and `r = -1`, or `r` is the greatest index whose
element satisfies `p`. -/
def isGreatestSatisfying (l : List Nat) (p : Nat → Bool) (r : Int) : Prop :=
  (r = -1 ∧ ∀ (i x : Nat), l.get? i = some x → p x = false) ∨
  (∃ (j x : Nat), r = (j : Int) ∧ l.get? j = some x ∧ p x = true ∧
    ∀ (k y : Nat), j < k → l.get? k = some y → p y = false)

theorem findLastIdxNat_none (p : Nat → Bool) :
    ∀ (l : List Nat), findLastIdxNat p l = none →
      ∀ (i x : Nat), l.get? i = some x → p x = false := by
  intro l
  induction l with
  | nil => intro _ i x hx; simp at hx
  | cons a l ih =>
    intro hnone i x hx
    unfold findLastIdxNat at hnone
    cases htail : findLastIdxNat p l with
    | some j => rw [htail] at hnone; simp at hnone
    | none =>
      rw [htail] at hnone
      have hpa : p a = false := by
        cases hc : p a with
        | false => rfl
        | true => rw [hc] at hnone; simp at hnone
      cases i with
      | zero =>
        simp only [List.get?_cons_zero, Option.some.injEq] at hx
        rw [← hx]; exact hpa
      | succ i =>
        simp only [List.get?_cons_succ] at hx
        exact ih htail i x hx

theorem findLastIdxNat_some (p : Nat → Bool) :
    ∀ (l : List Nat) (j : Nat), findLastIdxNat p l = some j →
      ∃ x : Nat, l.get? j = some x ∧ p x = true ∧
        ∀ (k y : Nat), j < k → l.get? k = some y → p y = false := by
  intro l
  induction l with
  | nil => intro j hj; simp [findLastIdxNat] at hj
  | cons a l ih =>
    intro j hj
    unfold findLastIdxNat at hj
    cases htail : findLastIdxNat p l with
    | some j0 =>
      rw [htail] at hj
      simp only [Option.some.injEq] at hj
      obtain ⟨x, hx, hpx, hmax⟩ := ih j0 htail
      refine ⟨x, ?_, hpx, ?_⟩
      · rw [← hj]; simpa using hx
      · intro k y hk hky
        cases k with
        | zero => omega
        | succ k0 =>
          simp only [List.get?_cons_succ] at hky
          exact hmax k0 y (by omega) hky
    | none =>
      rw [htail] at hj
      cases hpa : p a with
      | false => rw [hpa] at hj; simp at hj
      | true =>
        rw [hpa] at hj
        simp only [if_true, Option.some.injEq] at hj
        refine ⟨a, ?_, hpa, ?_⟩
        · rw [← hj]; rfl
        · intro k y hk hky
          cases k with
          | zero => omega
          | succ k0 =>
            simp only [List.get?_cons_succ] at hky
            exact findLastIdxNat_none p l htail k0 y hky

theorem findLastIndex_isGreatest (l : List Nat) (p : Nat → Bool) :
    isGreatestSatisfying l p (findLastIndex l p) := by
  unfold findLastIndex
  cases h : findLastIdxNat p l with
  | none => exact Or.inl ⟨rfl, fun i x hx => findLastIdxNat_none p l h i x hx⟩
  | some j =>
    obtain ⟨x, hx, hpx, hmax⟩ := findLastIdxNat_some p l j h
    exact Or.inr ⟨j, x, rfl, hx, hpx, hmax⟩

/-- C7: `getVisibleItems` returns as `first` the greatest index whose offset
is at most `scrollTop` and as `last` the greatest index whose offset is at
most `scrollTop + offsetHeight`, each `-1` when no index qualifies; with
heights `[50, 50, 50]` the offsets are `[0, 50, 100, 150]` and scroll
position 0 with viewport height 60 gives `{first := 0, last := 1}`. -/
theorem getVisibleItems_spec :
    (∀ (accumulative : List Nat) (scrollTop offsetHeight : Int),
      isGreatestSatisfying accumulative (fun item => decide ((item : Int) ≤ scrollTop))
        (getVisibleItems accumulative scrollTop offsetHeight).first ∧
      isGreatestSatisfying accumulative
        (fun item => decide ((item : Int) ≤ scrollTop + offsetHeight))
        (getVisibleItems accumulative scrollTop offsetHeight).last) ∧
    getVisibleItems [0, 50, 100, 150] 0 60 = { first := 0, last := 1 } ∧
    accumulativeHeight
      [{ index := 0, height := 50, data := 0 }, { index := 1, height := 50, data := 1 },
       { index := 2, height := 50, data := 2 }] 50 = [0, 50, 100, 150] :=
  ⟨fun accumulative scrollTop offsetHeight =>
    ⟨findLastIndex_isGreatest accumulative _, findLastIndex_isGreatest accumulative _⟩,
   by decide, by decide⟩

/-! ### C8: the measurement refresh performed by `fill` -/

theorem refreshLoop_length (items nodes : List Nat) (rangeStart : Nat) :
    ∀ (count i : Nat) (meta : List ScrollerItemMeta),
      (refreshLoop items nodes rangeStart meta i count).length = meta.length := by
  intro count
  induction count with
  | zero => intro i meta; rfl
  | succ count ih =>
    intro i meta
    simp only [refreshLoop]
    cases hn : nodes.get? (i - rangeStart) with
    | none => simp
    | some nodeHeight =>
      cases hm : meta.get? i with
      | none => simp
      | some m =>
        simp only []
        rw [ih (i + 1)]
        simp

theorem refreshLoop_get?_lt (items nodes : List Nat) (rangeStart : Nat) :
    ∀ (count i : Nat) (meta : List ScrollerItemMeta) (j : Nat), j < i →
      (refreshLoop items nodes rangeStart meta i count).get? j = meta.get? j := by
  intro count
  induction count with
  | zero => intro i meta j _; rfl
  | succ count ih =>
    intro i meta j hj
    simp only [refreshLoop]
    cases hn : nodes.get? (i - rangeStart) with
    | none => simp
    | some nodeHeight =>
      cases hm : meta.get? i with
      | none => simp
      | some m =>
        simp only []
        rw [ih (i + 1) _ j (by omega), List.get?_eq_getElem?,
          List.getElem?_set_ne (by omega), ← List.get?_eq_getElem?]

theorem refreshLoop_get?_spec (items nodes : List Nat) (rangeStart : Nat) :
    ∀ (count i : Nat) (meta : List ScrollerItemMeta) (k : Nat), k < count →
      rangeStart ≤ i → i + k - rangeStart < nodes.length → i + k < meta.length →
      ∀ m0 : ScrollerItemMeta, meta.get? (i + k) = some m0 →
        (refreshLoop items nodes rangeStart meta i count).get? (i + k) =
          some { index := m0.index, height := nodes.getD (i + k - rangeStart) 0,
                 data := items.getD (i + k) 0 } := by
  intro count
  induction count with
  | zero => intro i meta k hk; exact absurd hk (Nat.not_lt_zero k)
  | succ count ih =>
    intro i meta k hk hrs hnodes hmeta m0 hm0
    have hn0 : i - rangeStart < nodes.length := by omega
    have hm0lt : i < meta.length := by omega
    have hn : nodes.get? (i - rangeStart) = some (nodes.getD (i - rangeStart) 0) := by
      rw [List.get?_eq_getElem?, List.getElem?_eq_getElem hn0, List.getD_eq_getElem?_getD,
        List.getElem?_eq_getElem hn0]
      rfl
    obtain ⟨m, hm⟩ : ∃ m, meta.get? i = some m :=
      ⟨meta.get ⟨i, hm0lt⟩, by rw [List.get?_eq_get hm0lt]⟩
    simp only [refreshLoop, hn, hm]
    cases k with
    | zero =>
      rw [refreshLoop_get?_lt items nodes rangeStart count (i + 1) _ (i + 0) (by omega)]
      have hmm : m = m0 := by
        rw [Nat.add_zero] at hm0
        exact Option.some.inj (hm.symm.trans hm0)
      rw [List.get?_eq_getElem?]
      have : i + 0 = i := rfl
      rw [this, List.getElem?_set_self hm0lt, hmm]
    | succ k =>
      have hidx : i + (k + 1) = (i + 1) + k := by omega
      rw [hidx]
      refine ih (i + 1)
        (meta.set i { m with height := nodes.getD (i - rangeStart) 0, data := items.getD i 0 })
        k (by omega) (by omega) (by omega) ?_ m0 ?_
      · rw [List.length_set]; omega
      · rw [List.get?_eq_getElem?, List.getElem?_set_ne (by omega), ← List.get?_eq_getElem?,
          ← hidx]
        exact hm0

/-- C8 counterexample: on the non-empty collection `[1, 2, 3]` with a
rendered node of height 9 available, `fill(0, 0)` clamps to the single-index
range `{0, 0}` and performs no measurement refresh at all: `updateMetadata`
returns early when `start === end`, so record 0 keeps its stale height 7
instead of the re-read height 9. -/
theorem fill_single_index_no_refresh :
    (fill [9] stateRefresh 0 0).1.itemsMetadata.get? 0 =
      some { index := 0, height := 7, data := 1 } ∧
    ¬ (fill [9] stateRefresh 0 0).1.itemsMetadata.get? 0 =
      some { index := 0, height := 9, data := 1 } := by decide

/-- C8 amended: for `fill` on a non-empty collection with a synchronized
store, when the clamped range `{start', end'}` has `start' = end'` (a
single-index range) the metadata refresh is skipped entirely, and when
`start' ≠ end'` and a rendered node exists for every index of the clamped
range, every record in `{start', end'}` gets its height re-read from its
rendered node and its data pointer refreshed from the source collection. -/
theorem fill_refresh_characterization (nodes : List Nat) (s : ScrollerState)
    (start endArg : Int) (hsync : s.itemsMetadata.length = s.items.length)
    (hne : s.items ≠ []) :
    (max 0 start = min endArg (max 0 ((s.items.length : Int) - 1)) →
      (fill nodes s start endArg).1.itemsMetadata = s.itemsMetadata) ∧
    (max 0 start ≠ min endArg (max 0 ((s.items.length : Int) - 1)) →
      (min endArg (max 0 ((s.items.length : Int) - 1)) - max 0 start + 1).toNat ≤
        nodes.length →
      ∀ (i : Nat) (m0 : ScrollerItemMeta), s.itemsMetadata.get? i = some m0 →
        (max 0 start).toNat ≤ i →
        (i : Int) ≤ min endArg (max 0 ((s.items.length : Int) - 1)) →
        (fill nodes s start endArg).1.itemsMetadata.get? i =
          some { index := m0.index,
                 height := nodes.getD (i - (max 0 start).toNat) 0,
                 data := s.items.getD i 0 }) := by
  have hlen : s.items.length ≠ 0 := fun h => hne (List.length_eq_zero.mp h)
  have hgrow : growMetadata s.items s.itemsMetadata = s.itemsMetadata := by
    unfold growMetadata
    rw [hsync]
    simp
  have hfillmeta : (fill nodes s start endArg).1.itemsMetadata =
      if s.items.length ≠ 0 then
        updateMetadata nodes s.items s.itemsMetadata
          { start := max 0 start, endIdx := min endArg (max 0 ((s.items.length : Int) - 1)) }
      else s.itemsMetadata := rfl
  rw [hfillmeta, if_pos hlen]
  constructor
  · intro hEq
    simp only [updateMetadata]
    rw [if_pos hEq, hgrow]
  · intro hNe hcov i m0 hm0 hge hle
    simp only [updateMetadata]
    rw [if_neg hNe, hgrow]
    have hstart : ((max 0 start).toNat : Int) = max 0 start := by
      rw [Int.toNat_of_nonneg (le_max_left 0 start)]
    have hik : (max 0 start).toNat + (i - (max 0 start).toNat) = i := by omega
    have hilen : (i : Int) < (s.items.length : Int) := by
      have hmax : max 0 ((s.items.length : Int) - 1) ≤ (s.items.length : Int) - 1 := by
        have : (1 : Int) ≤ (s.items.length : Int) := by
          exact_mod_cast Nat.one_le_iff_ne_zero.mpr hlen
        exact max_le (by omega) le_rfl
      have := le_trans hle (le_trans (min_le_right _ _) hmax)
      omega
    have h := refreshLoop_get?_spec s.items nodes (max 0 start).toNat
      ((min endArg (max 0 ((s.items.length : Int) - 1)) - max 0 start + 1).toNat)
      (max 0 start).toNat s.itemsMetadata (i - (max 0 start).toNat)
      (by omega) (le_refl _) (by omega) (by rw [hik, hsync]; omega)
      m0 (by rw [hik]; exact hm0)
    rw [hik] at h
    have hsub : (max 0 start).toNat + (i - (max 0 start).toNat) - (max 0 start).toNat =
        i - (max 0 start).toNat := by omega
    exact h

/-- C8 witness: the amended refresh instantiated at `fill(0, 1)` on `[1, 2, 3]`
with rendered node heights `[9, 9]`: record 1 gets height 9 and data 2. -/
theorem fill_refresh_characterization_witness :
    (fill [9, 9] (mkState [1, 2, 3] false metaSync { start := 0, endIdx := 0 }) 0 1).1.itemsMetadata.get? 1 =
      some { index := 1, height := 9, data := 2 } :=
  (fill_refresh_characterization [9, 9]
      (mkState [1, 2, 3] false metaSync { start := 0, endIdx := 0 }) 0 1 rfl (by decide)).2
    (by decide) (by decide) 1 { index := 1, height := 0, data := 2 } rfl
    (by decide) (by decide)

/-! ### C9: termination of the `fillInitial` growth loop -/

theorem fillInitialFuel_isSome (heights : Nat → Nat) (len H : Nat) :
    ∀ (fuel e : Nat), len ≤ e + 2 + fuel →
      (fillInitialFuel heights len H 0 (fuel + 1) e).isSome = true := by
  intro fuel
  induction fuel with
  | zero =>
    intro e h
    simp only [fillInitialFuel]
    split
    · rename_i hc
      obtain ⟨hc1, -⟩ := hc
      omega
    · rfl
  | succ fuel ih =>
    intro e h
    simp only [fillInitialFuel]
    split
    · rename_i hc
      obtain ⟨hc1, -⟩ := hc
      exact ih (min (e + 1) (len - 1)) (by omega)
    · rfl

/-- C9: starting from the initial attached window `{0, 0}`, the `fillInitial`
growth loop terminates within `items.length + 1` calls (each recursive call
strictly grows the attached end until the collection is exhausted), and it
stops without recursing as soon as the attached measured height reaches the
container client height. -/
theorem fillInitial_terminates (heights : Nat → Nat) (len H : Nat)
    (_hpos : ∀ i, i < len → 0 < heights i) :
    (fillInitialFuel heights len H 0 (len + 1) 0).isSome = true ∧
    ∀ (fuel e : Nat),
      H ≤ ((List.range (min (min (e + 1) (len - 1) + 1) len)).map heights).sum →
      fillInitialFuel heights len H 0 (fuel + 1) e = some (min (e + 1) (len - 1)) := by
  constructor
  · exact fillInitialFuel_isSome heights len H len 0 (by omega)
  · intro fuel e hH
    simp only [fillInitialFuel, Nat.zero_add, Nat.sub_zero]
    split
    · rename_i hc
      exact absurd hc.2 (Nat.not_lt.mpr hH)
    · rfl

/-- C9 witness: 100 items of measured height 50 against a container of client
height 300: the loop terminates, attaching indices 0 through 5. -/
theorem fillInitial_terminates_witness :
    (fillInitialFuel (fun _ => 50) 100 300 0 101 0).isSome = true ∧
    fillInitialFuel (fun _ => 50) 100 300 0 101 0 = some 5 :=
  ⟨(fillInitial_terminates (fun _ => 50) 100 300 (fun _ _ => Nat.succ_pos 49)).1, by decide⟩

/-! ### C10: the `isScrolling` reentrancy guard -/

/-- C10: while `isScrolling` is true, a further `handleScroll` invocation is a
complete no-op: the state is returned unchanged and no event is dispatched,
so at most one settle sequence is ever in flight. -/
theorem handleScroll_reentrant_noop (nodes : List Nat) (s : ScrollerState)
    (h : s.isScrolling = true) : handleScroll nodes s = (s, []) := by
  unfold handleScroll
  rw [h]
  simp

/-- C10 witness: the guard instantiated at a concrete in-flight state. -/
theorem handleScroll_reentrant_noop_witness :
    handleScroll [] stateScrolling = (stateScrolling, []) :=
  handleScroll_reentrant_noop [] stateScrolling rfl

end VirtualScroller
